import Mathlib

/-!
Shallow embedding of the internship recommendation engine
(`recommendation_engine.py` together with the record types of `models.py`).

Strings are Lean `String`s and Python string operations are modelled as
structurally recursive functions on the underlying character lists, so that
every definition evaluates. Python floats are modelled as exact rationals.
Python `list.sort(key=..., reverse=True)` is a stable descending sort and is
modelled by `List.insertionSort` with the non-strict descending relation,
which is stable in exactly the same sense.
-/

/-! ### Python string primitives -/

/-- The whitespace characters stripped by Python `str.strip()`. -/
def isPySpace (c : Char) : Bool :=
  c = ' ' || c = '\t' || c = '\n' || c = '\r' || c = Char.ofNat 11 || c = Char.ofNat 12

/-- Python `str.lower()` (ASCII letters, which is all the repository uses). -/
def pyLower (s : String) : String := ⟨s.data.map Char.toLower⟩

/-- Python `str.strip()`: remove leading and trailing whitespace. -/
def pyStrip (s : String) : String :=
  ⟨((s.data.dropWhile isPySpace).reverse.dropWhile isPySpace).reverse⟩

/-- The composite `s.lower().strip()` used throughout the engine. -/
def pyNorm (s : String) : String := pyStrip (pyLower s)

/-- Does the first character list occur at the head of the second? -/
def listStarts : List Char → List Char → Bool
  | [], _ => true
  | _ :: _, [] => false
  | a :: as, b :: bs => a = b && listStarts as bs

/-- Does the first character list occur contiguously inside the second? -/
def listContains : List Char → List Char → Bool
  | n, [] => n.isEmpty
  | n, c :: t => listStarts n (c :: t) || listContains n t

/-- Python substring test `needle in hay`. -/
def pyIn (needle hay : String) : Bool := listContains needle.data hay.data

/-- Helper for `pyTitle`; the flag records whether the previous character was
alphabetic. -/
def pyTitleAux : List Char → Bool → List Char
  | [], _ => []
  | c :: cs, prevAlpha =>
    (if c.isAlpha then (if prevAlpha then c.toLower else c.toUpper) else c) ::
      pyTitleAux cs c.isAlpha

/-- Python `str.title()`: upper-case the first letter of every alphabetic run,
lower-case the rest. -/
def pyTitle (s : String) : String := ⟨pyTitleAux s.data false⟩

/-- Helper for `pyWords`; the accumulator holds the current word reversed. -/
def pyWordsAux : List Char → List Char → List String
  | [], acc => if acc.isEmpty then [] else [⟨acc.reverse⟩]
  | c :: cs, acc =>
    if isPySpace c then
      if acc.isEmpty then pyWordsAux cs [] else (⟨acc.reverse⟩ : String) :: pyWordsAux cs []
    else pyWordsAux cs (c :: acc)

/-- Python `str.split()` with no argument: split on whitespace runs, dropping
empty words. -/
def pyWords (s : String) : List String := pyWordsAux s.data []

/-- Python `sep.join(xs)`. -/
def pyJoin (sep : String) : List String → String
  | [] => ""
  | [x] => x
  | x :: y :: xs => x ++ sep ++ pyJoin sep (y :: xs)

/-! ### Data model (`models.py`) -/

/-- Model of `models.UserProfile`. The education level is carried as its string value. -/
structure UserProfile where
  name : String
  age : Int
  education_level : String
  field_of_study : String
  skills : List String
  interests : List String
  location : String
  preferred_locations : List String
  experience_level : String
  language_preference : String
deriving DecidableEq

/-- Model of `models.Internship`. -/
structure Internship where
  id : String
  title : String
  company : String
  location : String
  sector : String
  duration : String
  stipend : Option String
  description : String
  required_skills : List String
  education_requirement : String
  experience_required : String
  remote_option : Bool
  application_deadline : String
deriving DecidableEq

/-- Model of `models.Recommendation`; `match_score` is a Python float, modelled as an
exact rational. -/
structure Recommendation where
  internship : Internship
  match_score : ℚ
  match_reasons : List String
deriving DecidableEq

/-! ### The engine constants (`RecommendationEngine.__init__`) -/

/-- The table `self.skill_synonyms`, in insertion order. -/
def skill_synonyms : List (String × List String) :=
  [("programming", ["coding", "development", "software"]),
   ("python", ["django", "flask"]),
   ("javascript", ["js", "react", "node"]),
   ("design", ["graphic design", "ui", "ux", "visual"]),
   ("marketing", ["digital marketing", "social media"]),
   ("writing", ["content writing", "copywriting", "blogging"]),
   ("analysis", ["data analysis", "analytics", "research"])]

/-- The value lists `self.skill_synonyms.values()`, the only part of the table the matcher
reads. -/
def synonymGroups : List (List String) := skill_synonyms.map Prod.snd

def weights_skills : ℚ := 4/10

def weights_education : ℚ := 2/10

def weights_location : ℚ := 2/10

def weights_interests : ℚ := 2/10

/-! ### Skill matcher (`calculate_skill_match`) -/

/-- Accumulation step shared by the scoring loops: add the contribution of one
item to the running `(score, matches)` pair. -/
def accumPair {α : Type} (f : α → ℚ × List String) (acc : ℚ × List String) (x : α) :
    ℚ × List String :=
  (acc.1 + (f x).1, acc.2 ++ (f x).2)

/-- The inner direct/partial loop of `calculate_skill_match`: scan the required
skills in order; an exact match contributes 1.0, a substring match in either
direction contributes 0.7, and the scan stops at the first required skill that
matches either way. -/
def directMatch (u : String) : List String → ℚ × List String
  | [] => (0, [])
  | r :: rest =>
    if u = r then (1, [pyTitle r])
    else if pyIn u r || pyIn r u then (7/10, [pyTitle r])
    else directMatch u rest

/-- One iteration of the synonym loop of `calculate_skill_match`: if the user
skill lies in this synonym group, the first required skill also in the group
contributes 0.8. -/
def synGroupMatch (u : String) (reqs : List String) (g : List String) : ℚ × List String :=
  if g.contains u then
    match reqs.find? (fun r => g.contains r) with
    | some r => (8/10, [pyTitle r])
    | none => (0, [])
  else (0, [])

/-- The whole synonym loop of `calculate_skill_match`, over
`self.skill_synonyms.values()`. -/
def synMatch (u : String) (reqs : List String) : ℚ × List String :=
  synonymGroups.foldl (accumPair (synGroupMatch u reqs)) (0, [])

/-- The body of the outer loop of `calculate_skill_match` for one user skill:
the direct/partial contribution followed by the synonym contribution. -/
def userSkillContrib (reqs : List String) (u : String) : ℚ × List String :=
  (( directMatch u reqs).1 + (synMatch u reqs).1,
   ( directMatch u reqs).2 ++ (synMatch u reqs).2)

/-- The function `RecommendationEngine.calculate_skill_match`. -/
def calculate_skill_match (user_skills required_skills : List String) : ℚ × List String :=
  let user_skills_lower := user_skills.map pyNorm
  let required_skills_lower := required_skills.map pyNorm
  let t := user_skills_lower.foldl (accumPair (userSkillContrib required_skills_lower)) (0, [])
  if required_skills.isEmpty then (0, t.2)
  else (min (t.1 / required_skills.length) 1, t.2)

/-! ### Education matcher (`calculate_education_match`) -/

/-- The `education_hierarchy` dictionary. -/
def education_hierarchy : List (String × Int) :=
  [("high_school", 1), ("diploma", 2), ("undergraduate", 3), ("postgraduate", 4)]

/-- The lookup `education_hierarchy.get(s, 0)`. -/
def hierLevel (s : String) : Int :=
  match education_hierarchy.find? (fun p => p.1 == s) with
  | some p => p.2
  | none => 0

/-- The function `RecommendationEngine.calculate_education_match`; both arguments pass
through `.lower()` (no strip) before the dictionary lookup. -/
def calculate_education_match (user_education required_education : String) : ℚ :=
  let user_level := hierLevel (pyLower user_education)
  let required_level := hierLevel (pyLower required_education)
  if user_level ≥ required_level then 1
  else if user_level = required_level - 1 then 7/10
  else 3/10

/-! ### Location matcher (`calculate_location_match`) -/

/-- The function `RecommendationEngine.calculate_location_match`; the source local
variables `user_location_lower`, `internship_location_lower` and
`preferred_lower` are inlined. -/
def calculate_location_match (user_location : String) (preferred_locations : List String)
    (internship_location : String) (remote_option : Bool) : ℚ :=
  if remote_option then 1
  else if pyNorm user_location = pyNorm internship_location then 1
  else if (preferred_locations.map pyNorm).contains (pyNorm internship_location) then 9/10
  else if (pyNorm user_location :: preferred_locations.map pyNorm).any
      (fun loc => pyIn loc (pyNorm internship_location) || pyIn (pyNorm internship_location) loc)
    then 6/10
  else 2/10

/-! ### Interest matcher (`calculate_interest_match`) -/

/-- One iteration of the loop of `calculate_interest_match`: the full interest
as a substring of the text blob contributes 1.0, otherwise any whitespace word
of it contributes 0.7. -/
def interestContrib (text : String) (interest : String) : ℚ × List String :=
  if pyIn interest text then (1, [pyTitle interest])
  else if (pyWords interest).any (fun w => pyIn w text) then (7/10, [pyTitle interest])
  else (0, [])

/-- The function `RecommendationEngine.calculate_interest_match`; the blob is
`f"{sector} {title} {description}".lower()`. -/
def calculate_interest_match (user_interests : List String)
    (internship_sector internship_title internship_description : String) : ℚ × List String :=
  let user_interests_lower := user_interests.map pyNorm
  let internship_text :=
    pyLower ⟨internship_sector.data ++ ' ' :: (internship_title.data ++ ' ' :: internship_description.data)⟩
  let t := user_interests_lower.foldl (accumPair (interestContrib internship_text)) (0, [])
  if user_interests.isEmpty then (0, t.2)
  else (min (t.1 / user_interests.length) 1, t.2)

/-! ### Ranking orchestrator (`get_recommendations`)

The two storage fetches (`db.get_all_internships()` and the applied-id list
derived from `db.get_applications_by_user`) are inputs of the embedding. -/

/-- Python `round(x, 1)` (the exact tie, which floating point essentially never
produces, is resolved upward here). -/
def pyRound1 (x : ℚ) : ℚ := ((round (x * 10) : ℤ) : ℚ) / 10

/-- The weighted combination `final_score` computed per internship. -/
def finalScore (p : UserProfile) (i : Internship) : ℚ :=
  (calculate_skill_match p.skills i.required_skills).1 * weights_skills
  + calculate_education_match p.education_level i.education_requirement * weights_education
  + calculate_location_match p.location p.preferred_locations i.location i.remote_option
      * weights_location
  + (calculate_interest_match p.interests i.sector i.title i.description).1 * weights_interests

/-- The `match_reasons` list built per internship, in the fixed order of the
source. -/
def matchReasons (p : UserProfile) (i : Internship) : List String :=
  let skill_matches := (calculate_skill_match p.skills i.required_skills).2
  let education_score := calculate_education_match p.education_level i.education_requirement
  let location_score :=
    calculate_location_match p.location p.preferred_locations i.location i.remote_option
  let interest_matches := (calculate_interest_match p.interests i.sector i.title i.description).2
  (if skill_matches.isEmpty then []
   else ["Skills match: " ++ pyJoin ", " (skill_matches.take 3)])
  ++ (if education_score ≥ 7/10 then ["Education requirement met"] else [])
  ++ (if location_score ≥ 9/10 then
        [if i.remote_option then "Remote work available" else "Location matches preference"]
      else [])
  ++ (if interest_matches.isEmpty then []
      else ["Interests align: " ++ pyJoin ", " (interest_matches.take 2)])
  ++ (if pyLower i.experience_required = pyLower p.experience_level then
        ["Experience level perfect match"]
      else [])

/-- The `Recommendation` record appended for a surviving internship. -/
def mkRecommendation (p : UserProfile) (i : Internship) : Recommendation :=
  { internship := i
    match_score := pyRound1 (finalScore p i * 100)
    match_reasons := matchReasons p i }

/-- The main loop of `get_recommendations`: skip internships already applied
to, then keep a recommendation exactly when `final_score > 0.3`. -/
def candidateRecs (p : UserProfile) (all_internships : List Internship)
    (applied_ids : List String) : List Recommendation :=
  all_internships.filterMap fun i =>
    if applied_ids.contains i.id then none
    else if finalScore p i > 3/10 then some (mkRecommendation p i)
    else none

/-- The sort key of `recommendations.sort(key=..., reverse=True)`: non-strict
descending order on `match_score`. -/
def byScoreDesc (a b : Recommendation) : Prop := b.match_score ≤ a.match_score

instance : DecidableRel byScoreDesc :=
  fun a b => inferInstanceAs (Decidable (b.match_score ≤ a.match_score))

instance : IsTotal Recommendation byScoreDesc :=
  ⟨fun a b => le_total b.match_score a.match_score⟩

instance : IsTrans Recommendation byScoreDesc :=
  ⟨fun _ _ _ h1 h2 => le_trans h2 h1⟩

/-- The function `RecommendationEngine.get_recommendations`, with the storage snapshot and
the applied-id list as explicit inputs. -/
def get_recommendations (p : UserProfile) (all_internships : List Internship)
    (applied_ids : List String) (limit : Nat) : List Recommendation :=
  ((candidateRecs p all_internships applied_ids).insertionSort byScoreDesc).take limit

/-! ### A concrete scenario used for closed-form evaluations -/

/-- A concrete user profile: an undergraduate in Delhi with skills
`react`, `node`, interest `music`, beginner experience. -/
def sampleProfile : UserProfile :=
  { name := "Asha"
    age := 20
    education_level := "undergraduate"
    field_of_study := "computer science"
    skills := ["react", "node"]
    interests := ["music"]
    location := "delhi"
    preferred_locations := []
    experience_level := "beginner"
    language_preference := "english" }

/-- A concrete remote internship requiring `React` and `Node`. -/
def sampleInternship : Internship :=
  { id := "i1"
    title := "Dev Intern"
    company := "Acme"
    location := "mumbai"
    sector := "tech"
    duration := "3 months"
    stipend := none
    description := "Build apps"
    required_skills := ["React", "Node"]
    education_requirement := "high_school"
    experience_required := "beginner"
    remote_option := true
    application_deadline := "2026-01-01" }

/-- The recommendation the engine produces for the sample scenario: skill
score 1.0 (clamped), education 1.0, location 1.0, interests 0.0, final score
0.8, match score 80.0. The first reason string joins the first three matched
labels, duplicate included. -/
def sampleRec : Recommendation :=
  { internship := sampleInternship
    match_score := 80
    match_reasons := ["Skills match: React, React, Node", "Education requirement met",
      "Remote work available", "Experience level perfect match"] }

/-! ### Specification-side restatement of the skill score (claim C1)

These definitions follow the wording of the specification, to be compared with
the source-side `calculate_skill_match`. -/

/-- Spec wording: the direct/partial contribution of one (normalized) user
skill — 1.0 for an exact match, else 0.7 for a substring match either way,
stopping at the first required skill that matches. -/
def specDirectContrib (u : String) (reqs : List String) : ℚ :=
  match reqs.find? (fun r => decide (u = r) || pyIn u r || pyIn r u) with
  | some r => if u = r then 1 else 7/10
  | none => 0

/-- Spec wording: an additional 0.8 for every synonym-table entry containing
both the user skill and some required skill, independent of the direct/partial
contribution. -/
def specSynContrib (u : String) (reqs : List String) : ℚ :=
  (synonymGroups.map fun g =>
    if g.contains u && reqs.any (fun r => g.contains r) then (8:ℚ)/10 else 0).sum

/-- Spec wording: lowercase and trim everything, sum all contributions, divide
by the number of required skills, clamp to 1.0; 0 on an empty required list. -/
def specSkillScore (user_skills required_skills : List String) : ℚ :=
  let us := user_skills.map pyNorm
  let rs := required_skills.map pyNorm
  if required_skills.isEmpty then 0
  else min ((us.map fun u => specDirectContrib u rs + specSynContrib u rs).sum
      / required_skills.length) 1

/-! ### Helper lemmas -/

theorem foldl_accumPair_fst {α : Type} (f : α → ℚ × List String) :
    ∀ (l : List α) (acc : ℚ × List String),
      (l.foldl (accumPair f) acc).1 = acc.1 + (l.map fun x => (f x).1).sum
  | [], acc => by simp
  | x :: l, acc => by
    simp [List.foldl_cons, foldl_accumPair_fst f l, accumPair, add_assoc]

theorem foldl_accumPair_snd {α : Type} (f : α → ℚ × List String) :
    ∀ (l : List α) (acc : ℚ × List String),
      (l.foldl (accumPair f) acc).2 = acc.2 ++ (l.map fun x => (f x).2).flatten
  | [], acc => by simp
  | x :: l, acc => by
    simp [List.foldl_cons, foldl_accumPair_snd f l, accumPair]

theorem directMatch_fst (u : String) :
    ∀ reqs : List String, ( directMatch u reqs).1 = specDirectContrib u reqs
  | [] => by simp [directMatch, specDirectContrib]
  | r :: rest => by
    by_cases h : u = r
    · simp [directMatch, specDirectContrib, List.find?_cons, h]
    · by_cases h2 : (pyIn u r || pyIn r u) = true
      · rcases Bool.or_eq_true_iff.mp h2 with h3 | h3 <;>
          simp [directMatch, specDirectContrib, List.find?_cons, h, h2, h3]
      · have hur : pyIn u r = false := by
          cases hur : pyIn u r
          · rfl
          · exact absurd (by simp [hur]) h2
        have hru : pyIn r u = false := by
          cases hru : pyIn r u
          · rfl
          · exact absurd (by simp [hru]) h2
        simp [directMatch, specDirectContrib, List.find?_cons, h, hur, hru,
          directMatch_fst u rest]

theorem synGroupMatch_fst (u : String) (reqs g : List String) :
    (synGroupMatch u reqs g).1 =
      if g.contains u && reqs.any (fun r => g.contains r) then (8:ℚ)/10 else 0 := by
  rw [synGroupMatch]
  by_cases hu : g.contains u
  · rw [if_pos hu]
    cases hfind : reqs.find? (fun r => g.contains r) with
    | some r =>
      have hr : g.contains r := List.find?_some hfind
      have hmem : r ∈ reqs := List.mem_of_find?_eq_some hfind
      have hex : ∃ x ∈ reqs, x ∈ g := ⟨r, hmem, by simpa using hr⟩
      have humem : u ∈ g := by simpa using hu
      simp [humem, hex]
    | none =>
      have hnone : ¬∃ x ∈ reqs, x ∈ g := by
        rintro ⟨x, hx, hxg⟩
        have := List.find?_eq_none.mp hfind x hx
        simp at this
        exact this hxg
      simp [hnone]
  · have hnmem : u ∉ g := by simpa using hu
    simp [if_neg hu, hnmem]

theorem synMatch_fst (u : String) (reqs : List String) :
    (synMatch u reqs).1 = specSynContrib u reqs := by
  rw [synMatch, foldl_accumPair_fst, specSynContrib]
  simp [synGroupMatch_fst]

/-! ### Claim C1 -/

/-- C1. For every sequence of user skills and required skills,
`calculate_skill_match` lowercases and trims all strings, gives each user
skill at most one direct/partial contribution (1.0 for an exact match, else
0.7 for a substring match either way, stopping at the first required skill
that matches), adds an independent additional 0.8 contribution for a synonym
entry containing both the user skill and some required skill, and returns the
contribution sum divided by the number of required skills, clamped to 1.0,
with score 0 on an empty required list. -/
theorem calculate_skill_match_spec (user_skills required_skills : List String) :
    (calculate_skill_match user_skills required_skills).1 =
      specSkillScore user_skills required_skills := by
  unfold calculate_skill_match specSkillScore
  by_cases h : required_skills.isEmpty
  · simp [h]
  · simp [h, foldl_accumPair_fst, userSkillContrib, directMatch_fst, synMatch_fst]

/-! ### Claim C2 -/

/-- C2 counterexample. On user skills `["python","react"]` and required skills
`["Python","JavaScript","React","Database"]` the skill score is 0.7, not the
0.5 the claim states: besides the two exact matches, `"react"` also collects
the 0.8 synonym contribution from the `"javascript"` entry, whose value list
contains both `"react"` (user skill) and `"react"` (required skill). -/
theorem skill_match_scenario_counterexample :
    (calculate_skill_match ["python", "react"] ["Python", "JavaScript", "React", "Database"]).1
        ≠ 1/2
    ∧ (calculate_skill_match ["python", "react"] ["Python", "JavaScript", "React", "Database"]).1
        = 7/10 := by
  have h : (calculate_skill_match ["python", "react"]
      ["Python", "JavaScript", "React", "Database"]).1 = 7/10 := by
    norm_num +decide [calculate_skill_match, accumPair, userSkillContrib, directMatch, synMatch,
      synGroupMatch, synonymGroups, skill_synonyms, pyNorm, pyLower, pyStrip, pyTitle, pyTitleAux,
      pyIn, listContains, listStarts, isPySpace, min_def, List.find?]
  exact ⟨by rw [h]; norm_num, h⟩

/-- C2 amended. On user skills `["python","react"]` and required skills
`["Python","JavaScript","React","Database"]`: exact-match contributions 1.0
for `"python"` and 1.0 for `"react"`, plus a 0.8 synonym contribution for
`"react"` (the `"javascript"` synonym group contains both the user skill and
the required skill `"react"`), raw contribution sum 2.8, and skill score
`min(2.8 / 4, 1.0) = 0.7`; the matched labels are
`["Python", "React", "React"]`. -/
theorem skill_match_scenario_amended :
    ((["python", "react"].map pyNorm).map fun u =>
        specDirectContrib u (["Python", "JavaScript", "React", "Database"].map pyNorm)
          + specSynContrib u (["Python", "JavaScript", "React", "Database"].map pyNorm)).sum
        = 14/5
    ∧ (calculate_skill_match ["python", "react"] ["Python", "JavaScript", "React", "Database"]).1
        = 7/10
    ∧ (calculate_skill_match ["python", "react"] ["Python", "JavaScript", "React", "Database"]).2
        = ["Python", "React", "React"] := by
  refine ⟨?_, ?_, ?_⟩
  · norm_num +decide [specDirectContrib, specSynContrib, synonymGroups, skill_synonyms,
      pyNorm, pyLower, pyStrip, pyIn, listContains, listStarts, isPySpace, List.find?]
  · norm_num +decide [calculate_skill_match, accumPair, userSkillContrib, directMatch, synMatch,
      synGroupMatch, synonymGroups, skill_synonyms, pyNorm, pyLower, pyStrip, pyTitle, pyTitleAux,
      pyIn, listContains, listStarts, isPySpace, min_def, List.find?]
  · norm_num +decide [calculate_skill_match, accumPair, userSkillContrib, directMatch, synMatch,
      synGroupMatch, synonymGroups, skill_synonyms, pyNorm, pyLower, pyStrip, pyTitle, pyTitleAux,
      pyIn, listContains, listStarts, isPySpace, List.find?]

/-! ### Claim C3 -/

/-- C3 counterexample. `"masters"` is not a key of `education_hierarchy`, so
the user level degrades to 0; with required level `"high_school"` (level 1)
the user level is exactly one step below the required level and the code
returns 0.7, not the 0.3 the claim asserts for unrecognized strings whose
user level is not at least the required level. -/
theorem education_match_unrecognized_counterexample :
    calculate_education_match "masters" "high_school" ≠ 3/10
    ∧ calculate_education_match "masters" "high_school" = 7/10
    ∧ hierLevel (pyLower "masters") = 0
    ∧ hierLevel (pyLower "high_school") = 1 := by
  have h : calculate_education_match "masters" "high_school" = 7/10 := by
    norm_num +decide [calculate_education_match, hierLevel, education_hierarchy, pyLower,
      List.find?]
  exact ⟨by rw [h]; norm_num, h, by decide, by decide⟩

/-- C3 amended. With levels `high_school=1, diploma=2, undergraduate=3,
postgraduate=4` and every unrecognized string mapping to level 0, the score is
1.0 when user level is at least the required level, 0.7 when the user level is
exactly one step below it — including the case of an unrecognized user string
against required `high_school` — and 0.3 when it is two or more steps below. -/
theorem calculate_education_match_tiers :
    (∀ u r : String,
      (hierLevel (pyLower u) ≥ hierLevel (pyLower r) →
        calculate_education_match u r = 1)
      ∧ (hierLevel (pyLower u) = hierLevel (pyLower r) - 1 →
          calculate_education_match u r = 7/10)
      ∧ (hierLevel (pyLower u) < hierLevel (pyLower r) - 1 →
          calculate_education_match u r = 3/10))
    ∧ calculate_education_match "masters" "high_school" = 7/10 := by
  constructor
  · intro u r
    refine ⟨fun h => ?_, fun h => ?_, fun h => ?_⟩
    · simp [calculate_education_match, h]
    · have h2 : ¬ hierLevel (pyLower u) ≥ hierLevel (pyLower r) := by omega
      simp [calculate_education_match, h, h2]
    · have h2 : ¬ hierLevel (pyLower u) ≥ hierLevel (pyLower r) := by omega
      have h3 : ¬ hierLevel (pyLower u) = hierLevel (pyLower r) - 1 := by omega
      simp [calculate_education_match, h2, h3]
  · norm_num +decide [calculate_education_match, hierLevel, education_hierarchy, pyLower,
      List.find?]

/-- Sanity instance for C3: the spec scenario user `diploma` against required
`undergraduate` scores 0.7, obtained from the three-tier characterization. -/
theorem education_match_tiers_witness :
    calculate_education_match "diploma" "undergraduate" = 7/10 :=
  (calculate_education_match_tiers.1 "diploma" "undergraduate").2.1 (by decide)

/-! ### Claim C4 -/

/-- C4. `calculate_location_match` always returns one of 1.0, 0.9, 0.6, 0.2,
decided first-match-wins: remote wins outright; then equality of the
normalized locations; then membership of the normalized posting location in
the normalized preferred list; then a substring relation in either direction
against the user location or any preferred location; else 0.2. -/
theorem calculate_location_match_characterization (u : String) (pl : List String)
    (il : String) (ro : Bool) :
    (ro = true → calculate_location_match u pl il ro = 1)
    ∧ (ro = false → pyNorm u = pyNorm il → calculate_location_match u pl il ro = 1)
    ∧ (ro = false → pyNorm u ≠ pyNorm il →
        (pl.map pyNorm).contains (pyNorm il) = true →
        calculate_location_match u pl il ro = 9/10)
    ∧ (ro = false → pyNorm u ≠ pyNorm il →
        (pl.map pyNorm).contains (pyNorm il) = false →
        ((pyNorm u :: pl.map pyNorm).any fun loc =>
          pyIn loc (pyNorm il) || pyIn (pyNorm il) loc) = true →
        calculate_location_match u pl il ro = 6/10)
    ∧ (ro = false → pyNorm u ≠ pyNorm il →
        (pl.map pyNorm).contains (pyNorm il) = false →
        ((pyNorm u :: pl.map pyNorm).any fun loc =>
          pyIn loc (pyNorm il) || pyIn (pyNorm il) loc) = false →
        calculate_location_match u pl il ro = 2/10)
    ∧ (calculate_location_match u pl il ro = 1 ∨ calculate_location_match u pl il ro = 9/10
        ∨ calculate_location_match u pl il ro = 6/10
        ∨ calculate_location_match u pl il ro = 2/10) := by
  refine ⟨fun h => ?_, fun h he => ?_, fun h he hc => ?_, fun h he hc ha => ?_,
    fun h he hc ha => ?_, ?_⟩
  · rw [calculate_location_match, if_pos h]
  · rw [calculate_location_match, if_neg (by simp [h]), if_pos he]
  · rw [calculate_location_match, if_neg (by simp [h]), if_neg he, if_pos hc]
  · rw [calculate_location_match, if_neg (by simp [h]), if_neg he,
      if_neg (by rw [hc]; exact Bool.false_ne_true), if_pos ha]
  · rw [calculate_location_match, if_neg (by simp [h]), if_neg he,
      if_neg (by rw [hc]; exact Bool.false_ne_true),
      if_neg (by rw [ha]; exact Bool.false_ne_true)]
  · by_cases h : ro = true
    · exact Or.inl (by rw [calculate_location_match, if_pos h])
    · by_cases he : pyNorm u = pyNorm il
      · exact Or.inl (by rw [calculate_location_match, if_neg h, if_pos he])
      · by_cases hc : (pl.map pyNorm).contains (pyNorm il) = true
        · exact Or.inr (Or.inl (by
            rw [calculate_location_match, if_neg h, if_neg he, if_pos hc]))
        · by_cases ha : ((pyNorm u :: pl.map pyNorm).any fun loc =>
              pyIn loc (pyNorm il) || pyIn (pyNorm il) loc) = true
          · exact Or.inr (Or.inr (Or.inl (by
              rw [calculate_location_match, if_neg h, if_neg he, if_neg hc, if_pos ha])))
          · exact Or.inr (Or.inr (Or.inr (by
              rw [calculate_location_match, if_neg h, if_neg he, if_neg hc, if_neg ha])))

/-- Sanity instance for C4: a remote posting scores 1.0 regardless of garbage
location strings, obtained from the characterization. -/
theorem location_match_characterization_witness :
    calculate_location_match "Nowhere" [] "Anywhere" true = 1 :=
  (calculate_location_match_characterization "Nowhere" [] "Anywhere" true).1 rfl

/-! ### Claim C9 -/

theorem foldl_accumPair_eq_init {α : Type} (f : α → ℚ × List String) :
    ∀ (l : List α), (∀ x ∈ l, f x = (0, [])) →
      ∀ acc : ℚ × List String, l.foldl (accumPair f) acc = acc
  | [], _, acc => rfl
  | x :: l, h, acc => by
    have hx : f x = (0, []) := h x (List.mem_cons_self x l)
    have hstep : accumPair f acc x = acc := by
      simp [accumPair, hx]
    rw [List.foldl_cons, hstep]
    exact foldl_accumPair_eq_init f l (fun y hy => h y (List.mem_cons_of_mem x hy)) acc

/-- C9. The synonym check of `calculate_skill_match` tests membership only in
the value lists of `skill_synonyms`: no key of the table occurs in any value
list, a user skill equal to a key therefore never receives a synonym
contribution, and a nonzero synonym contribution forces the user skill and
some required skill to lie in the same value list. -/
theorem synonym_contribution_values_only :
    (∀ k ∈ skill_synonyms.map Prod.fst, ∀ g ∈ synonymGroups, k ∉ g)
    ∧ (∀ u ∈ skill_synonyms.map Prod.fst, ∀ reqs : List String, synMatch u reqs = (0, []))
    ∧ (∀ (u : String) (reqs : List String), (synMatch u reqs).1 ≠ 0 →
        ∃ g ∈ synonymGroups, u ∈ g ∧ ∃ r ∈ reqs, r ∈ g) := by
  have hkeys : ∀ k ∈ skill_synonyms.map Prod.fst, ∀ g ∈ synonymGroups, k ∉ g := by
    decide
  refine ⟨hkeys, ?_, ?_⟩
  · intro u hu reqs
    apply foldl_accumPair_eq_init
    intro g hg
    have hnot : u ∉ g := hkeys u hu g hg
    have hc : g.contains u = false := by simpa using hnot
    rw [synGroupMatch, if_neg (by rw [hc]; exact Bool.false_ne_true)]
  · intro u reqs hne
    rw [synMatch_fst, specSynContrib] at hne
    have hex : ∃ g ∈ synonymGroups,
        (if g.contains u && reqs.any (fun r => g.contains r) then (8:ℚ)/10 else 0) ≠ 0 := by
      by_contra hall
      push_neg at hall
      refine hne (List.sum_eq_zero ?_)
      intro x hx
      obtain ⟨g, hg, rfl⟩ := List.mem_map.mp hx
      exact hall g hg
    obtain ⟨g, hg, hval⟩ := hex
    refine ⟨g, hg, ?_⟩
    by_cases hc : (g.contains u && reqs.any fun r => g.contains r) = true
    · obtain ⟨hcu, hany⟩ := Bool.and_eq_true_iff.mp hc
      obtain ⟨r, hr, hrg⟩ := List.any_eq_true.mp hany
      exact ⟨by simpa using hcu, r, hr, by simpa using hrg⟩
    · exact absurd (by rw [if_neg hc]) hval

/-- Sanity instance for C9: the user skill `python`, being a key of the
synonym table and not a value, collects no synonym contribution even against
the required skill `django`. -/
theorem synonym_contribution_values_only_witness :
    synMatch "python" ["django"] = (0, []) :=
  synonym_contribution_values_only.2.1 "python" (by decide) ["django"]

/-! ### Bounds of the component scores -/

theorem specDirectContrib_nonneg (u : String) (reqs : List String) :
    0 ≤ specDirectContrib u reqs := by
  rw [specDirectContrib]
  cases reqs.find? (fun r => decide (u = r) || pyIn u r || pyIn r u) with
  | none => exact le_refl 0
  | some r => by_cases h : u = r <;> simp [h] <;> norm_num

theorem specSynContrib_nonneg (u : String) (reqs : List String) :
    0 ≤ specSynContrib u reqs := by
  rw [specSynContrib]
  apply List.sum_nonneg
  intro x hx
  obtain ⟨g, _, rfl⟩ := List.mem_map.mp hx
  split_ifs <;> norm_num

theorem calculate_skill_match_fst_bounds (us rs : List String) :
    0 ≤ (calculate_skill_match us rs).1 ∧ (calculate_skill_match us rs).1 ≤ 1 := by
  rw [calculate_skill_match]
  by_cases h : rs.isEmpty
  · simp [h]
  · simp only [h, Bool.false_eq_true, if_false]
    have ht : 0 ≤ ((us.map pyNorm).foldl
        (accumPair (userSkillContrib (rs.map pyNorm))) (0, [])).1 := by
      rw [foldl_accumPair_fst]
      refine add_nonneg (le_refl 0) (List.sum_nonneg ?_)
      intro x hx
      obtain ⟨u, _, rfl⟩ := List.mem_map.mp hx
      rw [userSkillContrib]
      exact add_nonneg (by rw [directMatch_fst]; exact specDirectContrib_nonneg u _)
        (by rw [synMatch_fst]; exact specSynContrib_nonneg u _)
    exact ⟨le_min (div_nonneg ht (by positivity)) (by norm_num), min_le_right _ _⟩

theorem calculate_education_match_bounds (u r : String) :
    0 ≤ calculate_education_match u r ∧ calculate_education_match u r ≤ 1 := by
  rw [calculate_education_match]
  split_ifs <;> norm_num

theorem calculate_location_match_bounds (u : String) (pl : List String) (il : String)
    (ro : Bool) : 0 ≤ calculate_location_match u pl il ro
      ∧ calculate_location_match u pl il ro ≤ 1 := by
  rw [calculate_location_match]
  split_ifs <;> norm_num

theorem calculate_interest_match_fst_bounds (ui : List String) (se ti de : String) :
    0 ≤ (calculate_interest_match ui se ti de).1
      ∧ (calculate_interest_match ui se ti de).1 ≤ 1 := by
  rw [calculate_interest_match]
  by_cases h : ui.isEmpty
  · simp [h]
  · simp only [h, Bool.false_eq_true, if_false]
    have ht : 0 ≤ ((ui.map pyNorm).foldl (accumPair (interestContrib
        (pyLower ⟨se.data ++ ' ' :: (ti.data ++ ' ' :: de.data)⟩))) (0, [])).1 := by
      rw [foldl_accumPair_fst]
      refine add_nonneg (le_refl 0) (List.sum_nonneg ?_)
      intro x hx
      obtain ⟨u, _, rfl⟩ := List.mem_map.mp hx
      rw [interestContrib]
      split_ifs <;> norm_num
    exact ⟨le_min (div_nonneg ht (by positivity)) (by norm_num), min_le_right _ _⟩

theorem finalScore_bounds (p : UserProfile) (i : Internship) :
    0 ≤ finalScore p i ∧ finalScore p i ≤ 1 := by
  obtain ⟨hs0, hs1⟩ := calculate_skill_match_fst_bounds p.skills i.required_skills
  obtain ⟨he0, he1⟩ := calculate_education_match_bounds p.education_level i.education_requirement
  obtain ⟨hl0, hl1⟩ := calculate_location_match_bounds p.location p.preferred_locations
    i.location i.remote_option
  obtain ⟨hi0, hi1⟩ := calculate_interest_match_fst_bounds p.interests i.sector i.title
    i.description
  rw [finalScore, weights_skills, weights_education, weights_location, weights_interests]
  constructor <;> nlinarith

theorem pyRound1_hundred_bounds {q : ℚ} (h0 : 0 ≤ q) (h1 : q ≤ 1) :
    0 ≤ pyRound1 (q * 100) ∧ pyRound1 (q * 100) ≤ 100 := by
  have hlo : (0:ℤ) ≤ round (q * 100 * 10) := by
    rw [round_eq]
    calc (0:ℤ) = ⌊(0:ℚ) + 1/2⌋ := by norm_num
    _ ≤ ⌊q * 100 * 10 + 1/2⌋ := Int.floor_le_floor (by nlinarith)
  have hhi : round (q * 100 * 10) ≤ 1000 := by
    rw [round_eq]
    calc ⌊q * 100 * 10 + 1/2⌋ ≤ ⌊(1000:ℚ) + 1/2⌋ := Int.floor_le_floor (by nlinarith)
    _ = 1000 := by norm_num
  constructor
  · exact div_nonneg (by exact_mod_cast hlo) (by norm_num)
  · rw [pyRound1, div_le_iff₀ (by norm_num)]
    have : ((round (q * 100 * 10) : ℤ) : ℚ) ≤ 1000 := by exact_mod_cast hhi
    linarith

/-! ### Membership in the candidate list and in the final output -/

theorem mem_candidateRecs {p : UserProfile} {all : List Internship} {applied : List String}
    {r : Recommendation} :
    r ∈ candidateRecs p all applied ↔
      ∃ i ∈ all, applied.contains i.id = false ∧ 3/10 < finalScore p i
        ∧ r = mkRecommendation p i := by
  rw [candidateRecs, List.mem_filterMap]
  constructor
  · rintro ⟨i, hi, hf⟩
    by_cases hap : applied.contains i.id = true
    · rw [if_pos hap] at hf
      exact absurd hf (by simp)
    · have hap' : applied.contains i.id = false := by
        cases h : applied.contains i.id
        · rfl
        · exact absurd h hap
      rw [if_neg hap] at hf
      by_cases hsc : 3/10 < finalScore p i
      · rw [if_pos hsc] at hf
        exact ⟨i, hi, hap', hsc, (Option.some_injective _ hf).symm⟩
      · rw [if_neg hsc] at hf
        exact absurd hf (by simp)
  · rintro ⟨i, hi, hap, hsc, rfl⟩
    exact ⟨i, hi, by
      rw [if_neg (by rw [hap]; exact Bool.false_ne_true), if_pos hsc]⟩

theorem mem_of_mem_get_recommendations {p : UserProfile} {all : List Internship}
    {applied : List String} {limit : Nat} {r : Recommendation}
    (h : r ∈ get_recommendations p all applied limit) :
    r ∈ candidateRecs p all applied := by
  rw [get_recommendations] at h
  exact (List.mem_insertionSort byScoreDesc).mp ((List.take_sublist _ _).subset h)

/-! ### Claim C6 -/

/-- C6. No recommendation returned by `get_recommendations` has an internship
whose identifier is a member of the applied list. -/
theorem get_recommendations_excludes_applied (p : UserProfile) (all : List Internship)
    (applied : List String) (limit : Nat) (r : Recommendation)
    (h : r ∈ get_recommendations p all applied limit) :
    r.internship.id ∉ applied := by
  obtain ⟨i, _, hap, _, rfl⟩ := mem_candidateRecs.mp (mem_of_mem_get_recommendations h)
  intro hmem
  have hc : applied.contains i.id = true := by simpa using hmem
  rw [hap] at hc
  exact Bool.false_ne_true hc

/-! ### Claim C7 -/

/-- C7. A posting not already applied to is kept as a candidate exactly when
its combined weighted score strictly exceeds 0.3; every kept candidate carries
`round(final_score * 100, 1)` as its match score; and a posting with combined
score at most 0.3 is entirely absent from the output at every limit. -/
theorem get_recommendations_threshold (p : UserProfile) (all : List Internship)
    (applied : List String) (i : Internship) (hmem : i ∈ all) (hnap : i.id ∉ applied) :
    (3/10 < finalScore p i ↔ ∃ r ∈ candidateRecs p all applied, r.internship = i)
    ∧ (∀ r ∈ candidateRecs p all applied,
        r.match_score = pyRound1 (finalScore p r.internship * 100))
    ∧ (finalScore p i ≤ 3/10 → ∀ (limit : Nat) (r : Recommendation),
        r ∈ get_recommendations p all applied limit → r.internship ≠ i) := by
  have hnapb : applied.contains i.id = false := by
    cases h : applied.contains i.id
    · rfl
    · exact absurd (by simpa using h) hnap
  refine ⟨⟨fun hsc => ⟨mkRecommendation p i,
      mem_candidateRecs.mpr ⟨i, hmem, hnapb, hsc, rfl⟩, rfl⟩, ?_⟩, ?_, ?_⟩
  · rintro ⟨r, hr, hri⟩
    obtain ⟨j, _, _, hjsc, rfl⟩ := mem_candidateRecs.mp hr
    have hj : (mkRecommendation p j).internship = j := rfl
    rw [hj] at hri
    rwa [hri] at hjsc
  · intro r hr
    obtain ⟨j, _, _, _, rfl⟩ := mem_candidateRecs.mp hr
    rfl
  · intro hle limit r hr hri
    obtain ⟨j, _, _, hjsc, rfl⟩ := mem_candidateRecs.mp (mem_of_mem_get_recommendations hr)
    have hj : (mkRecommendation p j).internship = j := rfl
    rw [hj] at hri
    rw [hri] at hjsc
    linarith

/-! ### Claim C8 -/

/-- C8. Every returned match score lies in `[0, 100]`: its combined score lies
in `[0, 1]` because the four component scores do and the fixed weights sum to
1.0, and scaling by 100 with rounding to one decimal place stays in range. -/
theorem get_recommendations_score_in_range (p : UserProfile) (all : List Internship)
    (applied : List String) (limit : Nat) (r : Recommendation)
    (h : r ∈ get_recommendations p all applied limit) :
    (0 ≤ r.match_score ∧ r.match_score ≤ 100)
    ∧ (0 ≤ finalScore p r.internship ∧ finalScore p r.internship ≤ 1)
    ∧ weights_skills + weights_education + weights_location + weights_interests = 1 := by
  obtain ⟨i, _, _, _, rfl⟩ := mem_candidateRecs.mp (mem_of_mem_get_recommendations h)
  obtain ⟨hf0, hf1⟩ := finalScore_bounds p i
  obtain ⟨h0, h100⟩ := pyRound1_hundred_bounds hf0 hf1
  exact ⟨⟨h0, h100⟩, ⟨hf0, hf1⟩,
    by rw [weights_skills, weights_education, weights_location, weights_interests]; norm_num⟩

/-! ### Claim C5 -/

theorem insertionSort_byScoreDesc_filter_stable (c : List Recommendation) (q : ℚ) :
    (c.insertionSort byScoreDesc).filter (fun r => decide (r.match_score = q)) =
      c.filter (fun r => decide (r.match_score = q)) := by
  have hpw : (c.filter (fun r => decide (r.match_score = q))).Pairwise byScoreDesc := by
    refine List.pairwise_of_forall_mem_list ?_
    intro a ha b hb
    have haq : a.match_score = q := by simpa using (List.mem_filter.mp ha).2
    have hbq : b.match_score = q := by simpa using (List.mem_filter.mp hb).2
    show b.match_score ≤ a.match_score
    rw [haq, hbq]
  have hsub : List.Sublist (c.filter (fun r => decide (r.match_score = q)))
      (c.insertionSort byScoreDesc) :=
    List.sublist_insertionSort hpw (List.filter_sublist _)
  have hsub2 := hsub.filter (fun r => decide (r.match_score = q))
  rw [List.filter_eq_self.mpr (fun a ha => (List.mem_filter.mp ha).2)] at hsub2
  have hlen : ((c.insertionSort byScoreDesc).filter
        (fun r => decide (r.match_score = q))).length =
      (c.filter (fun r => decide (r.match_score = q))).length :=
    ((List.perm_insertionSort byScoreDesc c).filter
      (fun r => decide (r.match_score = q))).length_eq
  exact (hsub2.eq_of_length hlen.symm).symm

/-- C5. For every limit of at least 1 the output has length at most the limit
and is sorted by match score in descending order; truncation happens after the
sort: there is a single list — a permutation of the candidates in encounter
order, itself sorted descending, and stable in that for every score value its
entries of that score are exactly the candidate entries of that score in
encounter order — whose first `limit` entries are the output. Consequently the
output entries of any given score form a prefix of the candidate entries of
that score. -/
theorem get_recommendations_sorted_truncated (p : UserProfile) (all : List Internship)
    (applied : List String) (limit : Nat) (hlim : 1 ≤ limit) :
    (get_recommendations p all applied limit).length ≤ limit
    ∧ (get_recommendations p all applied limit).Pairwise
        (fun a b => b.match_score ≤ a.match_score)
    ∧ (∃ sorted : List Recommendation,
        sorted.Perm (candidateRecs p all applied)
        ∧ sorted.Pairwise (fun a b => b.match_score ≤ a.match_score)
        ∧ (∀ q : ℚ, sorted.filter (fun r => decide (r.match_score = q)) =
            (candidateRecs p all applied).filter (fun r => decide (r.match_score = q)))
        ∧ get_recommendations p all applied limit = sorted.take limit)
    ∧ ∀ q : ℚ,
        (get_recommendations p all applied limit).filter
            (fun r => decide (r.match_score = q)) <+:
          (candidateRecs p all applied).filter (fun r => decide (r.match_score = q)) := by
  refine ⟨?_, ?_, ?_, ?_⟩
  · rw [get_recommendations, List.length_take]
    exact min_le_left _ _
  · rw [get_recommendations]
    exact List.Pairwise.sublist (List.take_sublist _ _)
      (List.sorted_insertionSort byScoreDesc (candidateRecs p all applied))
  · exact ⟨(candidateRecs p all applied).insertionSort byScoreDesc,
      List.perm_insertionSort byScoreDesc (candidateRecs p all applied),
      List.sorted_insertionSort byScoreDesc (candidateRecs p all applied),
      insertionSort_byScoreDesc_filter_stable (candidateRecs p all applied), rfl⟩
  · intro q
    rw [get_recommendations]
    have hpre : ((candidateRecs p all applied).insertionSort byScoreDesc).take limit <+:
        (candidateRecs p all applied).insertionSort byScoreDesc :=
      ⟨((candidateRecs p all applied).insertionSort byScoreDesc).drop limit,
        List.take_append_drop _ _⟩
    have h1 := hpre.filter (fun r => decide (r.match_score = q))
    rw [insertionSort_byScoreDesc_filter_stable (candidateRecs p all applied) q] at h1
    exact h1

/-- Sanity instance for C5, at the sample scenario with limit 5. -/
theorem get_recommendations_sorted_truncated_witness :
    (get_recommendations sampleProfile [sampleInternship] [] 5).length ≤ 5
    ∧ (get_recommendations sampleProfile [sampleInternship] [] 5).Pairwise
        (fun a b => b.match_score ≤ a.match_score)
    ∧ (∃ sorted : List Recommendation,
        sorted.Perm (candidateRecs sampleProfile [sampleInternship] [])
        ∧ sorted.Pairwise (fun a b => b.match_score ≤ a.match_score)
        ∧ (∀ q : ℚ, sorted.filter (fun r => decide (r.match_score = q)) =
            (candidateRecs sampleProfile [sampleInternship] []).filter
              (fun r => decide (r.match_score = q)))
        ∧ get_recommendations sampleProfile [sampleInternship] [] 5 = sorted.take 5)
    ∧ ∀ q : ℚ,
        (get_recommendations sampleProfile [sampleInternship] [] 5).filter
            (fun r => decide (r.match_score = q)) <+:
          (candidateRecs sampleProfile [sampleInternship] []).filter
            (fun r => decide (r.match_score = q)) :=
  get_recommendations_sorted_truncated sampleProfile [sampleInternship] [] 5 (by decide)

/-! ### Closed-form evaluation of the sample scenario -/

theorem sample_skill_matches :
    calculate_skill_match ["react", "node"] ["React", "Node"]
      = (1, ["React", "React", "Node", "React"]) := by
  norm_num +decide [calculate_skill_match, accumPair, userSkillContrib, directMatch, synMatch,
    synGroupMatch, synonymGroups, skill_synonyms, pyNorm, pyLower, pyStrip, pyTitle, pyTitleAux,
    pyIn, listContains, listStarts, isPySpace, min_def, List.find?]

theorem sample_final : finalScore sampleProfile sampleInternship = 4/5 := by
  norm_num +decide [finalScore, sampleProfile, sampleInternship, calculate_skill_match,
    calculate_education_match, calculate_location_match, calculate_interest_match,
    interestContrib, accumPair, userSkillContrib, directMatch, synMatch, synGroupMatch,
    synonymGroups, skill_synonyms, hierLevel, education_hierarchy, weights_skills,
    weights_education, weights_location, weights_interests, pyNorm, pyLower, pyStrip, pyTitle,
    pyTitleAux, pyIn, listContains, listStarts, isPySpace, pyWords, pyWordsAux, min_def,
    List.find?]

theorem sample_mkRec : mkRecommendation sampleProfile sampleInternship = sampleRec := by
  rw [mkRecommendation, sample_final]
  norm_num +decide [matchReasons, sampleProfile, sampleInternship, sampleRec,
    calculate_skill_match, calculate_education_match, calculate_location_match,
    calculate_interest_match, interestContrib, accumPair, userSkillContrib, directMatch,
    synMatch, synGroupMatch, synonymGroups, skill_synonyms, hierLevel, education_hierarchy,
    pyRound1, round_eq, pyNorm, pyLower, pyStrip, pyTitle, pyTitleAux, pyIn, listContains,
    listStarts, isPySpace, pyWords, pyWordsAux, pyJoin, min_def, List.find?,
    Recommendation.mk.injEq]

theorem sample_candidates :
    candidateRecs sampleProfile [sampleInternship] [] = [sampleRec] := by
  have h1 : ([] : List String).contains sampleInternship.id = false := rfl
  rw [candidateRecs]
  norm_num [List.filterMap_cons, h1, sample_final, sample_mkRec]

theorem sample_candidates_applied :
    candidateRecs sampleProfile [sampleInternship] ["other"] = [sampleRec] := by
  have h1 : (["other"] : List String).contains sampleInternship.id = false := by decide
  have h2 : ¬ sampleInternship.id = "other" := by decide
  rw [candidateRecs]
  norm_num [List.filterMap_cons, h1, h2, sample_final, sample_mkRec]

theorem sample_eval :
    get_recommendations sampleProfile [sampleInternship] [] 5 = [sampleRec] := by
  rw [get_recommendations, sample_candidates]
  simp

theorem sample_eval_applied :
    get_recommendations sampleProfile [sampleInternship] ["other"] 5 = [sampleRec] := by
  rw [get_recommendations, sample_candidates_applied]
  simp

/-! ### Claim C10 -/

/-- C10. The matched-label list of `calculate_skill_match` can repeat the same
title-cased required skill (here `React` three times: a direct match, and
synonym matches for both user skills), and the reason string built by
`get_recommendations` joins the first three entries of that list, duplicates
included. -/
theorem skill_matches_duplicates_in_reason :
    (calculate_skill_match sampleProfile.skills sampleInternship.required_skills).2
        = ["React", "React", "Node", "React"]
    ∧ (get_recommendations sampleProfile [sampleInternship] [] 5).map
          Recommendation.match_reasons
        = [["Skills match: React, React, Node", "Education requirement met",
            "Remote work available", "Experience level perfect match"]] := by
  constructor
  · rw [show sampleProfile.skills = ["react", "node"] from rfl,
      show sampleInternship.required_skills = ["React", "Node"] from rfl,
      sample_skill_matches]
  · rw [sample_eval]
    rfl

/-! ### Witnesses for the orchestrator claims -/

/-- Sanity instance for C6 at the sample scenario with a nonempty applied
list. -/
theorem get_recommendations_excludes_applied_witness :
    sampleRec.internship.id ∉ ["other"] :=
  get_recommendations_excludes_applied sampleProfile [sampleInternship] ["other"] 5 sampleRec
    (by rw [sample_eval_applied]; exact List.mem_singleton_self _)

/-- Sanity instance for C7 at the sample scenario. -/
theorem get_recommendations_threshold_witness :
    (3/10 < finalScore sampleProfile sampleInternship ↔
        ∃ r ∈ candidateRecs sampleProfile [sampleInternship] [],
          r.internship = sampleInternship)
    ∧ (∀ r ∈ candidateRecs sampleProfile [sampleInternship] [],
        r.match_score = pyRound1 (finalScore sampleProfile r.internship * 100))
    ∧ (finalScore sampleProfile sampleInternship ≤ 3/10 →
        ∀ (limit : Nat) (r : Recommendation),
          r ∈ get_recommendations sampleProfile [sampleInternship] [] limit →
          r.internship ≠ sampleInternship) :=
  get_recommendations_threshold sampleProfile [sampleInternship] [] sampleInternship
    (List.mem_singleton_self _) (by simp)

/-- Sanity instance for C8 at the sample scenario. -/
theorem get_recommendations_score_in_range_witness :
    (0 ≤ sampleRec.match_score ∧ sampleRec.match_score ≤ 100)
    ∧ (0 ≤ finalScore sampleProfile sampleRec.internship
        ∧ finalScore sampleProfile sampleRec.internship ≤ 1)
    ∧ weights_skills + weights_education + weights_location + weights_interests = 1 :=
  get_recommendations_score_in_range sampleProfile [sampleInternship] [] 5 sampleRec
    (by rw [sample_eval]; exact List.mem_singleton_self _)
